import Mathlib

/-!
Shallow embedding of the mio non-blocking I/O core: the read/write pump
of src/io.rs and the OS layer of src/os/posix.rs.

OS syscalls are modelled by an oracle: a list of raw syscall outcomes,
one entry consumed per syscall actually issued.  A pump therefore takes
the oracle as an extra argument and returns, besides its result and the
buffer afterward, the unconsumed tail of the oracle; it returns none
when the (finite) oracle runs out while the loop still wants to issue a
syscall.  Hardware words are Nat/Int with explicit reductions where
truncation matters; values that the C code stores in memory in network
byte order are modelled by their memory-byte lists, which is the
platform-independent content of to_be/from_be.
-/

namespace Mio

/-- Modelled from the spec: the raw OS error at the syscall boundary
(error.rs is not among the sources).  Only the distinctions the code
consumes are kept: EAGAIN (would block), EINPROGRESS, and any other
errno code. -/
inductive SysErr where
  | eagain
  | einprogress
  | other (code : Nat)
  deriving DecidableEq

/-- Modelled from the spec: the error taxonomy of error.rs (not among
the sources): WouldBlock / EndOfStream / ConnectInProgress / Other. -/
inductive MioError where
  | would_block
  | eof
  | in_progress
  | other (code : Nat)
  deriving DecidableEq

/-- Modelled from the spec: errno translation into the taxonomy.  It
never produces eof: EndOfStream arises only from a zero-byte read. -/
def from_sys_error : SysErr → MioError
  | .eagain => .would_block
  | .einprogress => .in_progress
  | .other c => .other c

/-- error.rs is_would_block discriminator. -/
def MioError.is_would_block : MioError → Bool
  | .would_block => true
  | _ => false

/-- error.rs is_eof discriminator. -/
def MioError.is_eof : MioError → Bool
  | .eof => true
  | _ => false

/-- io.rs NonBlock: Ready with the completed value, or WouldBlock. -/
inductive NonBlock (T : Type) where
  | Ready (t : T)
  | WouldBlock
  deriving DecidableEq

/-- The window of an Iobuf as the pump and OS layer see it: lo is the
cursor, hi the limit.  len is the remaining capacity (read side) or
remaining data (write side); advance moves the cursor forward by the
number of bytes transferred. -/
structure Buf where
  lo : Nat
  hi : Nat
  deriving DecidableEq

/-- Remaining length of the buffer window. -/
def Buf.len (b : Buf) : Nat := b.hi - b.lo

/-- Iobuf is_empty: no bytes remain in the window. -/
def Buf.is_empty (b : Buf) : Bool := b.len == 0

/-- Iobuf advance: move the cursor forward by n bytes. -/
def Buf.advance (b : Buf) (n : Nat) : Buf := { lo := b.lo + n, hi := b.hi }

/-- One raw OS read/write outcome: the byte count transferred, or a raw
OS error. -/
abbrev SysResult := Except SysErr Nat

/-- posix.rs read: one OS read; the cursor advances by the bytes
transferred, and a zero-byte transfer becomes the EndOfStream error.
Returns the MioResult together with the buffer afterward. -/
def os_read (dst : Buf) (sys : SysResult) : Except MioError Unit × Buf :=
  match sys with
  | .error e => (.error (from_sys_error e), dst)
  | .ok num_read =>
    let dst2 := dst.advance num_read
    if num_read == 0 then (.error .eof, dst2) else (.ok (), dst2)

/-- posix.rs write: one OS write; the cursor advances by the bytes
transferred.  No end-of-stream interpretation. -/
def os_write (src : Buf) (sys : SysResult) : Except MioError Unit × Buf :=
  match sys with
  | .error e => (.error (from_sys_error e), src)
  | .ok num_written => (.ok (), src.advance num_written)

/-- io.rs read pump loop, with the first_iter flag of the source.  While
the buffer is non-empty it issues one OS read per iteration; WouldBlock
returns at once, EndOfStream on the first iteration propagates and
otherwise yields Ready, any other error propagates, and a full buffer
yields Ready. -/
def read_loop (buf : Buf) (first_iter : Bool) (oracle : List SysResult) :
    Option (Except MioError (NonBlock Unit) × Buf × List SysResult) :=
  if buf.is_empty then some (.ok (.Ready ()), buf, oracle)
  else
    match oracle with
    | [] => none
    | sys :: rest =>
      match os_read buf sys with
      | (.ok _, buf2) => read_loop buf2 false rest
      | (.error e, buf2) =>
        if e.is_would_block then some (.ok .WouldBlock, buf2, rest)
        else if e.is_eof then
          if first_iter then some (.error e, buf2, rest)
          else some (.ok (.Ready ()), buf2, rest)
        else some (.error e, buf2, rest)

/-- io.rs read: the pump entry point starts with first_iter = true. -/
def read (buf : Buf) (oracle : List SysResult) :
    Option (Except MioError (NonBlock Unit) × Buf × List SysResult) :=
  read_loop buf true oracle

/-- io.rs write pump: same loop without the first-iteration/EOF special
case; WouldBlock returns at once and every error propagates as-is. -/
def write (buf : Buf) (oracle : List SysResult) :
    Option (Except MioError (NonBlock Unit) × Buf × List SysResult) :=
  if buf.is_empty then some (.ok (.Ready ()), buf, oracle)
  else
    match oracle with
    | [] => none
    | sys :: rest =>
      match os_write buf sys with
      | (.ok _, buf2) => write buf2 rest
      | (.error e, buf2) =>
        if e.is_would_block then some (.ok .WouldBlock, buf2, rest)
        else some (.error e, buf2, rest)

/-- posix.rs IoDesc: the OS file descriptor handle. -/
structure IoDesc where
  fd : Nat
  deriving DecidableEq

/-- posix.rs connect: Ok means the connect completed synchronously and
yields true; EINPROGRESS yields false; every other error is translated
and propagated. -/
def connect (sys : Except SysErr Unit) : Except MioError Bool :=
  match sys with
  | .ok _ => .ok true
  | .error e =>
    match e with
    | .einprogress => .ok false
    | _ => .error (from_sys_error e)

/-- Modelled from the spec: the address families of socket.rs (not
among the sources); only IPv4/IPv6 stream sockets are in scope, the
spec lists other families as unimplemented. -/
inductive AddressFamily where
  | Inet
  | Inet6
  | Unix
  deriving DecidableEq

/-- Outcome of code that may panic (Rust unimplemented!/fail!): either
the panic message or the normal value. -/
inductive PanicOr (A : Type) where
  | panicked (msg : String)
  | value (a : A)
  deriving DecidableEq

/-- posix.rs socket: Inet/Inet6 map to an OS socket call whose raw
outcome is sys; any other family hits the unimplemented! arm before any
syscall is made. -/
def socket (af : AddressFamily) (sys : Except SysErr Nat) :
    PanicOr (Except MioError IoDesc) :=
  match af with
  | .Inet =>
    .value (match sys with
            | .ok fd => .ok { fd := fd }
            | .error e => .error (from_sys_error e))
  | .Inet6 =>
    .value (match sys with
            | .ok fd => .ok { fd := fd }
            | .error e => .error (from_sys_error e))
  | .Unix => .panicked "not implemented"

/-- posix.rs reuseaddr: the getter is unimplemented! for every
descriptor. -/
def reuseaddr (_io_desc : IoDesc) : PanicOr (Except MioError Nat) :=
  .panicked "not implemented"

/-- The 32-bit C int value produced by casting a Rust uint (Rust
`as nix::c_int`): reduce mod 2^32 and reinterpret as two's
complement. -/
def toCInt (n : Nat) : Int :=
  let m : Nat := n % 4294967296
  if m < 2147483648 then (m : Int) else (m : Int) - 4294967296

/-- The 64-bit uint value produced by casting a C int back to a Rust
uint (Rust `as uint` on a 64-bit platform): two's complement
reinterpretation mod 2^64. -/
def cIntToUint (i : Int) : Nat := (i % 18446744073709551616).toNat

/-- posix.rs view of the C linger struct. -/
structure LingerOpt where
  l_onoff : Int
  l_linger : Int
  deriving DecidableEq

/-- posix.rs set_linger: the linger struct handed to setsockopt; the
on/off flag is 1 exactly when dur_s > 0, the time is dur_s cast to
c_int. -/
def set_linger (dur_s : Nat) : LingerOpt :=
  { l_onoff := if dur_s > 0 then 1 else 0
  , l_linger := toCInt dur_s }

/-- posix.rs linger (getter): given the linger struct getsockopt
returned, yield l_linger as uint when the flag is on, else 0. -/
def linger (l : LingerOpt) : Nat :=
  if l.l_onoff > 0 then cIntToUint l.l_linger else 0

/-- Modelled from the spec: the IP address data of socket.rs (not among
the sources); only IPv4 is fully specified. -/
inductive IpAddr where
  | IpV4Addr (a b c d : Nat)
  | IpV6Addr
  deriving DecidableEq

/-- Modelled from the spec: the socket address data of socket.rs (not
among the sources): family tag, IP, and port. -/
inductive SockAddr where
  | InetAddr (ip : IpAddr) (port : Nat)
  | UnixAddr
  deriving DecidableEq

/-- Memory bytes of a 32-bit value stored in big-endian (network)
order. -/
def u32_be_bytes (x : Nat) : List Nat :=
  [x / 16777216 % 256, x / 65536 % 256, x / 256 % 256, x % 256]

/-- Memory bytes of a 16-bit value stored in big-endian (network)
order. -/
def u16_be_bytes (x : Nat) : List Nat :=
  [x / 256 % 256, x % 256]

/-- posix.rs in_addr, with s_addr modelled by its memory bytes:
Int::from_be(ip) stores the value whose memory bytes are the big-endian
bytes of ip, whatever the platform endianness. -/
structure InAddrBytes where
  s_addr_bytes : List Nat
  deriving DecidableEq

/-- posix.rs ip4_to_inaddr: ip = (a<<24)|(b<<16)|(c<<8)|(d<<0), stored
in network byte order. -/
def ip4_to_inaddr (a b c d : Nat) : InAddrBytes :=
  { s_addr_bytes :=
      u32_be_bytes ((a <<< 24) ||| (b <<< 16) ||| (c <<< 8) ||| (d <<< 0)) }

/-- The AF_INET family number. -/
def AF_INET : Nat := 2

/-- posix.rs sockaddr_in, with the port field modelled by its memory
bytes: port.to_be() stores the value whose memory bytes are the
big-endian bytes of port. -/
structure SockAddrIn where
  sin_family : Nat
  sin_port_bytes : List Nat
  sin_addr : InAddrBytes
  deriving DecidableEq

/-- posix.rs from_sockaddr: an IPv4 inet address becomes a zeroed
sockaddr_in with family AF_INET, the port in network byte order and the
converted address; every other address hits unimplemented!. -/
def from_sockaddr (addr : SockAddr) : PanicOr SockAddrIn :=
  match addr with
  | .InetAddr ip port =>
    match ip with
    | .IpV4Addr a b c d =>
      .value { sin_family := AF_INET
             , sin_port_bytes := u16_be_bytes port
             , sin_addr := ip4_to_inaddr a b c d }
    | _ => .panicked "not implemented"
  | _ => .panicked "not implemented"end Mio

deriving instance DecidableEq for Except

namespace Mio

/-- Unfolding lemma: a full (empty-window) buffer makes the read pump
yield Ready at once, consuming nothing. -/
theorem read_loop_full (buf : Buf) (first_iter : Bool) (oracle : List SysResult)
    (h : buf.len = 0) :
    read_loop buf first_iter oracle = some (.ok (.Ready ()), buf, oracle) := by
  rw [read_loop.eq_def]
  simp [Buf.is_empty, h]

/-- Unfolding lemma: a successful OS read of n > 0 bytes advances the
buffer and continues the loop with first_iter cleared. -/
theorem read_loop_ok_step (buf : Buf) (first_iter : Bool) (n : Nat)
    (rest : List SysResult) (h : 0 < buf.len) (hn : 0 < n) :
    read_loop buf first_iter (Except.ok n :: rest)
      = read_loop (buf.advance n) false rest := by
  rw [read_loop.eq_def]
  simp [Buf.is_empty, Nat.pos_iff_ne_zero.mp h, os_read, Nat.pos_iff_ne_zero.mp hn]

/-- Unfolding lemma: a zero-byte OS read surfaces as EndOfStream inside
the loop; on the first iteration the error propagates, later it becomes
Ready. -/
theorem read_loop_eof_step (buf : Buf) (first_iter : Bool)
    (rest : List SysResult) (h : 0 < buf.len) :
    read_loop buf first_iter (Except.ok 0 :: rest)
      = if first_iter then some (.error .eof, buf, rest)
        else some (.ok (.Ready ()), buf, rest) := by
  rw [read_loop.eq_def]
  simp [Buf.is_empty, Nat.pos_iff_ne_zero.mp h, os_read, Buf.advance,
        MioError.is_would_block, MioError.is_eof]

/-- Unfolding lemma: a raw OS error ends the read loop immediately:
EAGAIN becomes Ok(WouldBlock), anything else propagates translated. -/
theorem read_loop_err_step (buf : Buf) (first_iter : Bool) (e : SysErr)
    (rest : List SysResult) (h : 0 < buf.len) :
    read_loop buf first_iter (Except.error e :: rest)
      = if e = SysErr.eagain then some (.ok .WouldBlock, buf, rest)
        else some (.error (from_sys_error e), buf, rest) := by
  rw [read_loop.eq_def]
  cases e <;>
    simp [Buf.is_empty, Nat.pos_iff_ne_zero.mp h, os_read, from_sys_error,
          MioError.is_would_block, MioError.is_eof]

/-- Unfolding lemma: an exhausted (empty-window) buffer makes the write
pump yield Ready at once, consuming nothing. -/
theorem write_full (buf : Buf) (oracle : List SysResult) (h : buf.len = 0) :
    write buf oracle = some (.ok (.Ready ()), buf, oracle) := by
  rw [write.eq_def]
  simp [Buf.is_empty, h]

/-- Unfolding lemma: a successful OS write advances the buffer and
continues the loop. -/
theorem write_ok_step (buf : Buf) (n : Nat) (rest : List SysResult)
    (h : 0 < buf.len) :
    write buf (Except.ok n :: rest) = write (buf.advance n) rest := by
  rw [write.eq_def]
  simp [Buf.is_empty, Nat.pos_iff_ne_zero.mp h, os_write]

/-- Unfolding lemma: a raw OS error ends the write loop immediately:
EAGAIN becomes Ok(WouldBlock), anything else propagates translated. -/
theorem write_err_step (buf : Buf) (e : SysErr) (rest : List SysResult)
    (h : 0 < buf.len) :
    write buf (Except.error e :: rest)
      = if e = SysErr.eagain then some (.ok .WouldBlock, buf, rest)
        else some (.error (from_sys_error e), buf, rest) := by
  rw [write.eq_def]
  cases e <;>
    simp [Buf.is_empty, Nat.pos_iff_ne_zero.mp h, os_write, from_sys_error,
          MioError.is_would_block]

/-- Advancing a non-empty buffer by at least one byte strictly shrinks
the remaining length. -/
theorem advance_len_lt (buf : Buf) (n : Nat) (h : 0 < buf.len) (hn : 0 < n) :
    (buf.advance n).len < buf.len := by
  simp [Buf.advance, Buf.len] at *
  omega

/-- With only successful writes of at least one byte each, and at least
one OS response per remaining byte, the write pump drains the buffer to
length 0 and yields Ready. -/
theorem write_drains (oracle : List SysResult) :
    ∀ buf : Buf,
    (∀ r ∈ oracle, ∃ n, r = Except.ok n ∧ 1 ≤ n) →
    buf.len ≤ oracle.length →
    ∃ buf2 rest2,
      write buf oracle = some (.ok (.Ready ()), buf2, rest2) ∧ buf2.len = 0 := by
  induction oracle with
  | nil =>
    intro buf _ hlen
    simp at hlen
    refine ⟨buf, [], write_full buf [] hlen, hlen⟩
  | cons r oracle ih =>
    intro buf hsucc hlen
    by_cases hb : buf.len = 0
    · exact ⟨buf, r :: oracle, write_full buf _ hb, hb⟩
    · obtain ⟨n, rfl, hn⟩ := hsucc r (List.mem_cons_self r oracle)
      rw [write_ok_step buf n oracle (by omega)]
      refine ih (buf.advance n) (fun s hs => hsucc s (List.mem_cons_of_mem _ hs)) ?_
      have h1 : (buf.advance n).len < buf.len :=
        advance_len_lt buf n (by omega) hn
      simp at hlen ⊢
      omega

/-- Once the first_iter flag is cleared, any run of successful reads
followed by a zero-byte read ends the read loop with Ready. -/
theorem read_loop_ready_of_progress (pre : List SysResult) :
    ∀ (buf : Buf) (rest : List SysResult),
    (∀ r ∈ pre, ∃ n, r = Except.ok n ∧ 1 ≤ n) →
    ∃ buf2 rest2,
      read_loop buf false (pre ++ Except.ok 0 :: rest)
        = some (.ok (.Ready ()), buf2, rest2) := by
  induction pre with
  | nil =>
    intro buf rest _
    by_cases hb : buf.len = 0
    · exact ⟨buf, _, read_loop_full buf false _ hb⟩
    · refine ⟨buf, rest, ?_⟩
      rw [List.nil_append, read_loop_eof_step buf false rest (by omega)]
      simp
  | cons r pre ih =>
    intro buf rest hsucc
    by_cases hb : buf.len = 0
    · exact ⟨buf, _, read_loop_full buf false _ hb⟩
    · obtain ⟨n, rfl, hn⟩ := hsucc r (List.mem_cons_self r pre)
      rw [List.cons_append, read_loop_ok_step buf false n _ (by omega) hn]
      exact ih (buf.advance n) rest (fun s hs => hsucc s (List.mem_cons_of_mem _ hs))

/-- With at least one OS response per remaining byte, the read loop
always produces a result. -/
theorem read_loop_total (oracle : List SysResult) :
    ∀ (buf : Buf) (first_iter : Bool),
    buf.len ≤ oracle.length → (read_loop buf first_iter oracle).isSome = true := by
  induction oracle with
  | nil =>
    intro buf first_iter hlen
    simp at hlen
    rw [read_loop_full buf first_iter [] hlen]
    rfl
  | cons r oracle ih =>
    intro buf first_iter hlen
    by_cases hb : buf.len = 0
    · rw [read_loop_full buf first_iter _ hb]; rfl
    · match r with
      | .error e =>
        rw [read_loop_err_step buf first_iter e oracle (by omega)]
        by_cases he : e = SysErr.eagain <;> simp [he]
      | .ok 0 =>
        rw [read_loop_eof_step buf first_iter oracle (by omega)]
        cases first_iter <;> simp
      | .ok (n + 1) =>
        rw [read_loop_ok_step buf first_iter (n + 1) oracle (by omega) (by omega)]
        refine ih (buf.advance (n + 1)) false ?_
        have := advance_len_lt buf (n + 1) (by omega) (by omega)
        simp at hlen ⊢
        omega

/-- Shifting left by k and or-ing a value below 2^k is plain addition. -/
theorem shl_lor_eq_add (x y k : Nat) (h : y < 2 ^ k) :
    x <<< k ||| y = x * 2 ^ k + y := by
  rw [Nat.shiftLeft_eq, Nat.mul_comm]
  exact (Nat.mul_add_lt_is_or h x).symm

/-- The shift/or combination of ip4_to_inaddr equals the weighted sum
of the four address bytes. -/
theorem ip4_lor_value (a b c d : Nat) (hb : b < 256)
    (hc : c < 256) (hd : d < 256) :
    (a <<< 24) ||| (b <<< 16) ||| (c <<< 8) ||| (d <<< 0)
      = a * 16777216 + b * 65536 + c * 256 + d := by
  have h8 : (2 : Nat) ^ 8 = 256 := by norm_num
  have h16 : (2 : Nat) ^ 16 = 65536 := by norm_num
  have h24 : (2 : Nat) ^ 24 = 16777216 := by norm_num
  rw [Nat.shiftLeft_zero, Nat.lor_assoc, Nat.lor_assoc]
  rw [shl_lor_eq_add c d 8 (by omega)]
  rw [shl_lor_eq_add b _ 16 (by rw [h16]; omega)]
  rw [shl_lor_eq_add a _ 24 (by rw [h24]; omega)]
  rw [h8, h16, h24]
  omega

/-- Claim C1: on the read pump, an EndOfStream observed before any
successful OS read in this call propagates as the EndOfStream error,
while after at least one successful read in this call it makes the pump
return Ready(()) instead of an error. -/
theorem read_eof_semantics (buf : Buf) (pre rest : List SysResult)
    (h : 0 < buf.len) (hpre : pre ≠ [])
    (hsucc : ∀ r ∈ pre, ∃ n, r = Except.ok n ∧ 1 ≤ n) :
    read buf (Except.ok 0 :: rest) = some (Except.error MioError.eof, buf, rest)
    ∧ (read buf (pre ++ Except.ok 0 :: rest)).map Prod.fst
        = some (Except.ok (NonBlock.Ready ())) := by
  constructor
  · rw [read, read_loop_eof_step buf true rest h]; simp
  · match pre, hpre with
    | r :: pre, _ =>
      obtain ⟨n, rfl, hn⟩ := hsucc r (List.mem_cons_self r pre)
      rw [read, List.cons_append, read_loop_ok_step buf true n _ h hn]
      obtain ⟨buf2, rest2, heq⟩ := read_loop_ready_of_progress pre (buf.advance n) rest
        (fun s hs => hsucc s (List.mem_cons_of_mem _ hs))
      rw [heq]
      rfl

/-- Witness for C1: on a 3-byte window, an immediate zero-byte read
yields the EndOfStream error, while 2 bytes then end-of-stream yields
Ready. -/
theorem read_eof_semantics_witness :
    read ⟨0, 3⟩ (Except.ok 0 :: []) = some (Except.error MioError.eof, ⟨0, 3⟩, [])
    ∧ (read ⟨0, 3⟩ ([Except.ok 2] ++ Except.ok 0 :: [])).map Prod.fst
        = some (Except.ok (NonBlock.Ready ())) :=
  read_eof_semantics ⟨0, 3⟩ [Except.ok 2] [] (by decide) (by decide)
    (by intro r hr; simp at hr; exact ⟨2, hr, by decide⟩)

/-- Claim C2: any WouldBlock observation makes the read pump return
Ok(WouldBlock) — not Ready, not an error — immediately, leaving the
buffer cursor unchanged and issuing no further OS reads; in particular
on the very first attempt of a call. -/
theorem read_would_block_immediate (buf : Buf) (first_iter : Bool)
    (rest : List SysResult) (h : 0 < buf.len) :
    read_loop buf first_iter (Except.error SysErr.eagain :: rest)
      = some (Except.ok NonBlock.WouldBlock, buf, rest)
    ∧ read buf (Except.error SysErr.eagain :: rest)
      = some (Except.ok NonBlock.WouldBlock, buf, rest) := by
  constructor
  · rw [read_loop_err_step buf first_iter _ rest h]; simp
  · rw [read, read_loop_err_step buf true _ rest h]; simp

/-- Witness for C2: a first-attempt EAGAIN on a 3-byte window returns
WouldBlock with the buffer untouched. -/
theorem read_would_block_immediate_witness :
    read_loop ⟨0, 3⟩ false [Except.error SysErr.eagain]
      = some (Except.ok NonBlock.WouldBlock, ⟨0, 3⟩, [])
    ∧ read ⟨0, 3⟩ [Except.error SysErr.eagain]
      = some (Except.ok NonBlock.WouldBlock, ⟨0, 3⟩, []) :=
  read_would_block_immediate ⟨0, 3⟩ false [] (by decide)

/-- Claim C3: with every OS write succeeding with at least one byte
(and one response available per remaining byte), the write pump returns
Ready(()) and the buffer's remaining length is 0 afterward; the write
pump has no EndOfStream special case, and WouldBlock and other OS
errors propagate as-is. -/
theorem write_pump_spec (buf : Buf) (oracle rest : List SysResult) (e : SysErr)
    (h : 0 < buf.len)
    (hsucc : ∀ r ∈ oracle, ∃ n, r = Except.ok n ∧ 1 ≤ n)
    (hlen : buf.len ≤ oracle.length)
    (he : e ≠ SysErr.eagain) :
    (write buf oracle).map (fun r => (r.1, (r.2.1).len))
      = some (Except.ok (NonBlock.Ready ()), 0)
    ∧ write buf (Except.error SysErr.eagain :: rest)
        = some (Except.ok NonBlock.WouldBlock, buf, rest)
    ∧ write buf (Except.error e :: rest)
        = some (Except.error (from_sys_error e), buf, rest) := by
  refine ⟨?_, ?_, ?_⟩
  · obtain ⟨buf2, rest2, heq, hz⟩ := write_drains oracle buf hsucc hlen
    rw [heq]
    simp [hz]
  · rw [write_err_step buf _ rest h]; simp
  · rw [write_err_step buf e rest h]; simp [he]

/-- Witness for C3: a 2-byte buffer drained by two 1-byte writes ends
at remaining length 0 with Ready; EAGAIN and errno 9 propagate. -/
theorem write_pump_spec_witness :
    (write ⟨0, 2⟩ [Except.ok 1, Except.ok 1]).map (fun r => (r.1, (r.2.1).len))
      = some (Except.ok (NonBlock.Ready ()), 0)
    ∧ write ⟨0, 2⟩ (Except.error SysErr.eagain :: [])
        = some (Except.ok NonBlock.WouldBlock, ⟨0, 2⟩, [])
    ∧ write ⟨0, 2⟩ (Except.error (SysErr.other 9) :: [])
        = some (Except.error (from_sys_error (SysErr.other 9)), ⟨0, 2⟩, []) :=
  write_pump_spec ⟨0, 2⟩ [Except.ok 1, Except.ok 1] [] (SysErr.other 9)
    (by decide)
    (by intro r hr; simp at hr; exact ⟨1, hr, by decide⟩)
    (by decide) (by decide)

/-- Claim C4: the OS-layer read issues exactly one OS read (it consumes
exactly one raw outcome), advances the cursor by exactly the reported
byte count, returns the EndOfStream error iff zero bytes were
transferred, and on an OS failure leaves the cursor untouched (raw
errors never translate to EndOfStream). -/
theorem os_read_one_syscall (dst : Buf) (n : Nat) (e : SysErr) :
    (os_read dst (Except.ok n)).2 = dst.advance n
    ∧ (dst.advance n).lo = dst.lo + n
    ∧ ((os_read dst (Except.ok n)).1 = Except.error MioError.eof ↔ n = 0)
    ∧ os_read dst (Except.error e) = (Except.error (from_sys_error e), dst)
    ∧ from_sys_error e ≠ MioError.eof := by
  refine ⟨?_, rfl, ?_, rfl, ?_⟩
  · by_cases hn : n = 0 <;> simp [os_read, hn]
  · by_cases hn : n = 0 <;> simp [os_read, hn]
  · cases e <;> simp [from_sys_error]

/-- Claim C5: a buffer with no remaining capacity (read) or no
remaining data (write) on entry makes the pump return Ready(()) with
the oracle unconsumed: no OS syscall is issued. -/
theorem pump_empty_buffer_noop (buf : Buf) (oracle : List SysResult)
    (h : buf.len = 0) :
    read buf oracle = some (Except.ok (NonBlock.Ready ()), buf, oracle)
    ∧ write buf oracle = some (Except.ok (NonBlock.Ready ()), buf, oracle) :=
  ⟨by rw [read]; exact read_loop_full buf true oracle h, write_full buf oracle h⟩

/-- Witness for C5: an exhausted window returns Ready even though the
OS would have answered EAGAIN, and that answer stays unconsumed. -/
theorem pump_empty_buffer_noop_witness :
    read ⟨5, 5⟩ [Except.error SysErr.eagain]
      = some (Except.ok (NonBlock.Ready ()), ⟨5, 5⟩, [Except.error SysErr.eagain])
    ∧ write ⟨5, 5⟩ [Except.error SysErr.eagain]
      = some (Except.ok (NonBlock.Ready ()), ⟨5, 5⟩, [Except.error SysErr.eagain]) :=
  pump_empty_buffer_noop ⟨5, 5⟩ [Except.error SysErr.eagain] (by decide)

/-- Claim C6: connect returns true when the OS connect completed
synchronously, false exactly when the OS reports EINPROGRESS, and a
translated error for every other OS error. -/
theorem connect_spec (e : SysErr) (he : e ≠ SysErr.einprogress) :
    connect (Except.ok ()) = Except.ok true
    ∧ connect (Except.error SysErr.einprogress) = Except.ok false
    ∧ connect (Except.error e) = Except.error (from_sys_error e)
    ∧ (connect (Except.error e) = Except.ok false ↔ e = SysErr.einprogress) := by
  refine ⟨rfl, rfl, ?_, ?_⟩ <;> cases e <;> simp_all [connect, from_sys_error]

/-- Witness for C6: instantiated at errno 111 (connection refused). -/
theorem connect_spec_witness :
    connect (Except.ok ()) = Except.ok true
    ∧ connect (Except.error SysErr.einprogress) = Except.ok false
    ∧ connect (Except.error (SysErr.other 111))
        = Except.error (from_sys_error (SysErr.other 111))
    ∧ (connect (Except.error (SysErr.other 111)) = Except.ok false
        ↔ SysErr.other 111 = SysErr.einprogress) :=
  connect_spec (SysErr.other 111) (by decide)

/-- Claim C7: get_reuseaddr never returns a value for any descriptor,
and socket for an address family other than IPv4/IPv6 never returns a
descriptor: both signal not-implemented on every such call. -/
theorem unimplemented_fail_loudly (io_desc : IoDesc) (sys : Except SysErr Nat) :
    reuseaddr io_desc = PanicOr.panicked "not implemented"
    ∧ socket AddressFamily.Unix sys = PanicOr.panicked "not implemented" :=
  ⟨rfl, rfl⟩

/-- Claim C8: the read pump terminates: it yields a result whenever the
OS supplies at least one outcome per remaining byte, because each
successful OS read advances the cursor by at least one byte and so
strictly shrinks the remaining capacity (a zero-byte read is converted
to EndOfStream by the OS layer), and every other outcome returns. -/
theorem read_pump_terminates (buf : Buf) (first_iter : Bool)
    (oracle rest : List SysResult) (n : Nat)
    (hlen : buf.len ≤ oracle.length) (hb : 0 < buf.len) (hn : 1 ≤ n) :
    (read_loop buf first_iter oracle).isSome = true
    ∧ read_loop buf first_iter (Except.ok n :: rest)
        = read_loop (buf.advance n) false rest
    ∧ (buf.advance n).len < buf.len
    ∧ (os_read buf (Except.ok 0)).1 = Except.error MioError.eof :=
  ⟨read_loop_total oracle buf first_iter hlen,
   read_loop_ok_step buf first_iter n rest hb hn,
   advance_len_lt buf n hb hn, rfl⟩

/-- Witness for C8: a 2-byte window with two 1-byte reads available. -/
theorem read_pump_terminates_witness :
    (read_loop ⟨0, 2⟩ true [Except.ok 1, Except.ok 1]).isSome = true
    ∧ read_loop ⟨0, 2⟩ true (Except.ok 1 :: [])
        = read_loop (Buf.advance ⟨0, 2⟩ 1) false []
    ∧ (Buf.advance ⟨0, 2⟩ 1).len < Buf.len ⟨0, 2⟩
    ∧ (os_read ⟨0, 2⟩ (Except.ok 0)).1 = Except.error MioError.eof :=
  read_pump_terminates ⟨0, 2⟩ true [Except.ok 1, Except.ok 1] [] 1
    (by decide) (by decide) (by decide)

/-- Claim C9: ip4_to_inaddr encodes (a, b, c, d) as the 32-bit value
(a<<24)|(b<<16)|(c<<8)|d stored in network byte order — its memory
bytes are exactly [a, b, c, d] — and from_sockaddr stores the port in
big-endian byte order, for every IPv4 address and port. -/
theorem addr_network_byte_order (a b c d port : Nat)
    (ha : a < 256) (hb : b < 256) (hc : c < 256) (hd : d < 256)
    (hp : port < 65536) :
    (ip4_to_inaddr a b c d).s_addr_bytes
      = u32_be_bytes (a * 16777216 + b * 65536 + c * 256 + d)
    ∧ (ip4_to_inaddr a b c d).s_addr_bytes = [a, b, c, d]
    ∧ from_sockaddr (SockAddr.InetAddr (IpAddr.IpV4Addr a b c d) port)
      = PanicOr.value
          { sin_family := AF_INET
          , sin_port_bytes := [port / 256, port % 256]
          , sin_addr := ip4_to_inaddr a b c d } := by
  have hip := ip4_lor_value a b c d hb hc hd
  have hpd : port / 256 % 256 = port / 256 := Nat.mod_eq_of_lt (by omega)
  refine ⟨by simp only [ip4_to_inaddr, hip], ?_, ?_⟩
  · simp only [ip4_to_inaddr, hip, u32_be_bytes, List.cons.injEq, and_true]
    refine ⟨?_, ?_, ?_, ?_⟩ <;> omega
  · simp [from_sockaddr, u16_be_bytes, hpd]

/-- Witness for C9: 127.0.0.1:8080 is stored as bytes [127, 0, 0, 1]
with port bytes [31, 144]. -/
theorem addr_network_byte_order_witness :
    (ip4_to_inaddr 127 0 0 1).s_addr_bytes
      = u32_be_bytes (127 * 16777216 + 0 * 65536 + 0 * 256 + 1)
    ∧ (ip4_to_inaddr 127 0 0 1).s_addr_bytes = [127, 0, 0, 1]
    ∧ from_sockaddr (SockAddr.InetAddr (IpAddr.IpV4Addr 127 0 0 1) 8080)
      = PanicOr.value
          { sin_family := AF_INET
          , sin_port_bytes := [8080 / 256, 8080 % 256]
          , sin_addr := ip4_to_inaddr 127 0 0 1 } :=
  addr_network_byte_order 127 0 0 1 8080 (by decide) (by decide) (by decide)
    (by decide) (by decide)

/-- Counterexample for C10 as stated: at duration 2^32 the cast to the
32-bit C int truncates, so set_linger turns the flag on but stores
linger time 0, not 2^32, and the subsequent get returns 0. -/
theorem set_linger_truncation_cex :
    (set_linger 4294967296).l_onoff = 1
    ∧ (set_linger 4294967296).l_linger = 0
    ∧ (set_linger 4294967296).l_linger ≠ ((4294967296 : Nat) : Int)
    ∧ linger (set_linger 4294967296) = 0 := by
  refine ⟨rfl, ?_, ?_, ?_⟩ <;> decide

/-- Claim C10 (amended): set_linger with duration d sets the on/off
flag to on exactly when d > 0 and the linger time to d truncated to the
32-bit C int — exactly d whenever d < 2^31; linger (the getter) returns
0 whenever the flag is off regardless of the stored time, and otherwise
the stored linger time. -/
theorem linger_zero_disabled (d : Nat) (t : Int)
    (hd : d < 2147483648) (ht0 : 0 ≤ t) (ht1 : t < 2147483648) (hdp : 0 < d) :
    (set_linger d).l_onoff = 1
    ∧ (set_linger 0).l_onoff = 0
    ∧ (set_linger d).l_linger = (d : Int)
    ∧ linger { l_onoff := 0, l_linger := t } = 0
    ∧ linger { l_onoff := 1, l_linger := t } = t.toNat
    ∧ linger (set_linger d) = d := by
  have hm : d % 4294967296 = d := Nat.mod_eq_of_lt (by omega)
  have hlt : (d : Int) < 2147483648 := by exact_mod_cast hd
  refine ⟨by simp [set_linger, hdp], rfl, ?_, by simp [linger], ?_, ?_⟩
  · simp [set_linger, toCInt, hm]
    omega
  · simp [linger, cIntToUint]
    omega
  · simp [linger, set_linger, hdp, toCInt, cIntToUint, hm]
    omega

/-- Witness for C10 (amended): duration 5 round-trips through
set_linger/linger, and a stored off flag reads back as 0. -/
theorem linger_zero_disabled_witness :
    (set_linger 5).l_onoff = 1
    ∧ (set_linger 0).l_onoff = 0
    ∧ (set_linger 5).l_linger = ((5 : Nat) : Int)
    ∧ linger { l_onoff := 0, l_linger := (7 : Int) } = 0
    ∧ linger { l_onoff := 1, l_linger := (7 : Int) } = (7 : Int).toNat
    ∧ linger (set_linger 5) = 5 :=
  linger_zero_disabled 5 7 (by decide) (by decide) (by decide) (by decide)

end Mio
